import Mathlib

/-!
Verification of the nag-runner reminder utility (src/nag_runner.py) against its
specification.  The Python module is shallowly embedded below: JSON scalar
values become `JValue`, timestamps are modelled as integer microsecond counts
(the ISO-8601 strings written and re-parsed by the code round-trip microseconds
exactly), the filesystem is a map from paths to parsed JSON content, and each
method of the `NagRunner` class becomes a Lean function of the same name.
Fatal exits (`sys.exit` and uncaught `TypeError` from namedtuple construction)
become `Except` errors; Python exits with a non-zero status in both cases.
-/

namespace NagRunner

/-- A JSON scalar value as it appears in the config and history files. -/
inductive JValue where
  | str : String → JValue
  | num : Int → JValue
deriving DecidableEq, Repr

/-- `Entry = namedtuple("Entry", ["name", "command", "interval"])`. -/
structure Entry where
  name : JValue
  command : JValue
  interval : JValue
deriving DecidableEq, Repr

/-- One JSON object from the config file, as an association list. -/
abbrev Record := List (String × JValue)

/-- A fatal error that terminates the process.  `systemExit msg` models
`sys.exit(msg)` (prints `msg`, exits with status 1); `typeError msg` models an
uncaught `TypeError` (prints a traceback, exits with status 1). -/
inductive PyError where
  | systemExit : String → PyError
  | typeError : String → PyError
deriving DecidableEq, Repr

/-- The process exit status produced by a computation that either completes
normally or dies with a `PyError`. -/
def exitCode {α : Type} : Except PyError α → Nat
  | .error _ => 1
  | .ok _ => 0

/-- The field names of the `Entry` namedtuple, in declaration order. -/
def fieldNames : List String := ["name", "command", "interval"]

/-- Key lookup in a record (first occurrence wins). -/
def recLookup (r : Record) (k : String) : Option JValue :=
  (r.find? (fun kv => decide (kv.1 = k))).map Prod.snd

/-- `Entry(**entry_data)`: binding a record to the namedtuple fields.  A key
outside `fieldNames` raises `TypeError: unexpected keyword argument`; a missing
field raises `TypeError: missing required argument`. -/
def mkEntry (r : Record) : Except PyError Entry :=
  match r.find? (fun kv => !(fieldNames.contains kv.1)) with
  | some kv => .error (.typeError ("unexpected keyword argument " ++ kv.1))
  | none =>
    match recLookup r "name" with
    | none => .error (.typeError "missing required argument name")
    | some n =>
      match recLookup r "command" with
      | none => .error (.typeError "missing required argument command")
      | some c =>
        match recLookup r "interval" with
        | none => .error (.typeError "missing required argument interval")
        | some i => .ok ⟨n, c, i⟩

/-- `[Entry(**entry_data) for entry_data in entries]`: the list comprehension
builds entries left to right and the first failing record aborts the whole
construction. -/
def mkEntries : List Record → Except PyError (List Entry)
  | [] => .ok []
  | r :: rest =>
    match mkEntry r with
    | .error e => .error e
    | .ok entry =>
      match mkEntries rest with
      | .error e => .error e
      | .ok entries => .ok (entry :: entries)

/-- The filesystem as seen by config loading: a path either does not exist
(`none`) or parses to a JSON list of records. -/
abbrev ConfigFS := String → Option (List Record)

/-- `load_json_file(path, [])`: the default `[]` when the path does not exist. -/
def load_json_list (fs : ConfigFS) (path : String) : List Record :=
  (fs path).getD []

/-- `os.path.expanduser`: replace a leading tilde with the home directory. -/
def expanduser (home path : String) : String :=
  if path.data.take 2 = ['~', '/'] then home ++ String.mk (path.data.drop 1)
  else path

/-- The two default config locations tried in order. -/
def defaultConfigPaths : List String :=
  ["~/.config/nag_runner.json", "~/.nag_runner.json"]

/-- The candidate list `possible_config_files` from `load_config`. -/
def possible_config_files (home : String) : Option String → List String
  | some p => [p]
  | none => defaultConfigPaths.map (expanduser home)

/-- The loop body of `load_config`: return the entries of the first candidate
whose JSON content is a non-empty list, else exit naming every candidate. -/
def tryConfigFiles (fs : ConfigFS) (allFiles : List String) :
    List String → Except PyError (List Entry)
  | [] =>
    .error (.systemExit ("No config file found at " ++ String.intercalate ", " allFiles))
  | p :: rest =>
    let entries := load_json_list fs p
    if entries.isEmpty then tryConfigFiles fs allFiles rest
    else mkEntries entries

/-- `load_config`: candidate resolution followed by the first-non-empty scan. -/
def load_config (fs : ConfigFS) (home : String) (config_file : Option String) :
    Except PyError (List Entry) :=
  tryConfigFiles fs (possible_config_files home config_file)
    (possible_config_files home config_file)

/-- The run-history mapping (Python dict, insertion ordered). -/
abbrev History := List (JValue × Int)

/-- Dict lookup: `d[k]` / `k in d`. -/
def History.lookup (h : History) (k : JValue) : Option Int :=
  (h.find? (fun kv => decide (kv.1 = k))).map Prod.snd

/-- Dict assignment `d[k] = v`: replace the value at an existing key in place,
else append the new binding at the end. -/
def History.setKey : History → JValue → Int → History
  | [], k, v => [(k, v)]
  | (k', v') :: rest, k, v =>
    if k' = k then (k', v) :: rest else (k', v') :: History.setKey rest k v

/-- Microseconds in one day; timestamps are integers at microsecond
resolution, matching the `%f` precision the code writes and parses. -/
def microsecondsPerDay : Int := 86400000000

/-- `(datetime.now() - last_run_time).days`: Python `timedelta.days` is the
floor of the signed duration in whole days. -/
def daysBetween (now lastRun : Int) : Int :=
  Int.fdiv (now - lastRun) microsecondsPerDay

/-- `int(x)` on a JSON scalar: identity on a number, string parsing on a
string (`none` models the `ValueError` raised on an unparsable string). -/
def pyInt : JValue → Option Int
  | .num n => some n
  | .str s => s.toInt?

/-- `get_days_since_last_run`: load the history file (empty mapping when the
file is absent), return `None` when the entry was never recorded, else the
floor day count since the recorded timestamp.  `file` is the current content
of the last-run file, `none` when it does not exist. -/
def get_days_since_last_run (file : Option History) (now : Int) (e : Entry) :
    Option Int :=
  (History.lookup (file.getD []) e.name).map (fun t => daysBetween now t)

/-- `set_last_run`: read the mapping (empty when the file is absent), set
`entry.name -> now`, and rewrite the whole mapping. -/
def set_last_run (file : Option History) (e : Entry) (now : Int) : History :=
  History.setKey (file.getD []) e.name now

/-- `run_entry`: `call(entry.command, shell=True)` blocks until the subprocess
exits and returns its exit status, which the code neither binds nor tests;
then `set_last_run`.  The result is the list of commands handed to the shell
together with the rewritten history. -/
def run_entry (e : Entry) (file : Option History) (now : Int)
    (_exitStatus : Int) : List JValue × History :=
  ([e.command], set_last_run file e now)

/-- `get_entry_by_name`: linear scan of the config, first match wins, else
`sys.exit`. -/
def get_entry_by_name (config : List Entry) (name : String) :
    Except PyError Entry :=
  match config.find? (fun entry => decide (entry.name = JValue.str name)) with
  | some entry => .ok entry
  | none => .error (.systemExit ("Could not find entry with name " ++ name))

/-- `run_entry_by_name`: look the entry up, then run it unconditionally. -/
def run_entry_by_name (config : List Entry) (file : Option History)
    (now exitStatus : Int) (name : String) :
    Except PyError (List JValue × History) :=
  match get_entry_by_name config name with
  | .error err => .error err
  | .ok entry => .ok (run_entry entry file now exitStatus)

/-- The content of the last-run file after `run_entry_by_name` returns: on an
error the process exits before any write, so the file keeps its old content
(an absent file stays absent, read back as the empty mapping). -/
def historyAfterRun (file : Option History)
    (r : Except PyError (List JValue × History)) : History :=
  match r with
  | .ok (_, h) => h
  | .error _ => file.getD []

/-- The four bound methods that can be dispatched from the response table. -/
inductive Action where
  | run_entry_action
  | print_next_time_message
  | set_last_run_action
  | print_menu
deriving DecidableEq, Repr

/-- `get_user_actions`: the ordered `(responses, method, ask_again)` table. -/
def get_user_actions : List (List String × Action × Bool) :=
  [ (["Y", "y", ""], Action.run_entry_action, false),
    (["n", "N"], Action.print_next_time_message, false),
    (["d"], Action.set_last_run_action, false),
    (["?"], Action.print_menu, true) ]

/-- `method(entry)` for each table entry: the commands executed and the
resulting state of the last-run file.  `print_next_time_message` and
`print_menu` only print.  The exit status of a dispatched command is
irrelevant to the state, so it is passed as 0 here. -/
def applyAction (e : Entry) (now : Int) (file : Option History) :
    Action → List JValue × Option History
  | .run_entry_action =>
    let r := run_entry e file now 0
    (r.1, some r.2)
  | .print_next_time_message => ([], file)
  | .set_last_run_action => ([], some (set_last_run file e now))
  | .print_menu => ([], file)

/-- One iteration of `for responses, method, ask_again in actions`: when the
response is in the response list, dispatch the method and overwrite
`keep_going` with `ask_again`; otherwise leave the accumulator unchanged. -/
def matchResponse (e : Entry) (now : Int) (response : String)
    (acc : Option History × List JValue × Bool)
    (act : List String × Action × Bool) :
    Option History × List JValue × Bool :=
  if response ∈ act.1 then
    let r := applyAction e now acc.1 act.2.1
    (r.2, acc.2.1 ++ r.1, act.2.2)
  else acc

/-- The observable outcome of the `while keep_going` prompt loop for one due
entry: how many times the prompt was printed, which commands were executed in
order, the final state of the last-run file, and the input lines left over for
later entries. -/
structure LoopResult where
  prompts : Nat
  executed : List JValue
  file : Option History
  rest : List String
deriving DecidableEq, Repr

/-- The `while keep_going` loop of `run_overdue_entries`, driven by the list
of input lines the user will type.  Each iteration prints the prompt, reads a
line, and folds it through the action table; `keep_going` starts `True` and is
reassigned only on a match.  Running out of input while the loop still wants a
line models `input()` raising end-of-file: the result is `none`. -/
def promptLoop (e : Entry) (now : Int) (file : Option History) :
    List String → Option LoopResult
  | [] => none
  | response :: rest =>
    let step := get_user_actions.foldl (matchResponse e now response)
      (file, [], true)
    if step.2.2 then
      match promptLoop e now step.1 rest with
      | none => none
      | some r =>
        some { r with prompts := r.prompts + 1,
                      executed := step.2.1 ++ r.executed }
    else
      some { prompts := 1, executed := step.2.1, file := step.1, rest := rest }

/-- The due decision of the sweep, lines 134 to 137: never recorded means due;
otherwise due exactly when the day count is not below `int(entry.interval)`
(`none` models `int` raising on an unparsable interval). -/
def isDue (file : Option History) (now : Int) (e : Entry) : Option Bool :=
  match get_days_since_last_run file now e with
  | none => some true
  | some k => (pyInt e.interval).map (fun i => !decide (k < i))

/-- The body of the sweep for one entry: skip silently when not due (no
prompt, nothing executed, file and input untouched), else enter the prompt
loop. -/
def processEntry (e : Entry) (now : Int) (file : Option History)
    (inputs : List String) : Option LoopResult :=
  match get_days_since_last_run file now e with
  | some k =>
    match pyInt e.interval with
    | none => none
    | some i =>
      if k < i then some ⟨0, [], file, inputs⟩
      else promptLoop e now file inputs
  | none => promptLoop e now file inputs

/-! ### Concrete inputs for counterexamples and witnesses -/

/-- A concrete entry: name `A`, command `true`, interval 1 day. -/
def entryA : Entry := ⟨.str "A", .str "true", .num 1⟩

/-! ### Helper lemmas -/

theorem History.lookup_cons (k' : JValue) (v' : Int) (rest : History)
    (k : JValue) :
    History.lookup ((k', v') :: rest) k =
      if k' = k then some v' else History.lookup rest k := by
  by_cases h : k' = k <;> simp [History.lookup, List.find?, h]

theorem History.setKey_lookup_self (h : History) (k : JValue) (v : Int) :
    History.lookup (History.setKey h k v) k = some v := by
  induction h with
  | nil => simp [History.setKey, History.lookup, List.find?]
  | cons kv rest ih =>
    obtain ⟨k', v'⟩ := kv
    by_cases hk : k' = k
    · simp [History.setKey, hk, History.lookup_cons]
    · simp [History.setKey, hk, History.lookup_cons, ih]

theorem History.lookup_nil (k : JValue) : History.lookup [] k = none := rfl

theorem History.setKey_lookup_other (h : History) (k m : JValue) (v : Int)
    (hm : m ≠ k) :
    History.lookup (History.setKey h k v) m = History.lookup h m := by
  have hk' : k ≠ m := Ne.symm hm
  induction h with
  | nil =>
    simp [History.setKey, History.lookup_cons, History.lookup_nil, hk']
  | cons kv rest ih =>
    obtain ⟨k', v'⟩ := kv
    by_cases hk : k' = k
    · subst hk
      simp [History.setKey, History.lookup_cons, hk']
    · simp [History.setKey, hk, History.lookup_cons, ih]

theorem foldl_no_match (e : Entry) (now : Int) (r : String)
    (acc : Option History × List JValue × Bool)
    (hr : ∀ act ∈ get_user_actions, r ∉ act.1) :
    get_user_actions.foldl (matchResponse e now r) acc = acc := by
  have h1 : r ∉ ["Y", "y", ""] :=
    hr (["Y", "y", ""], Action.run_entry_action, false)
      (by simp [get_user_actions])
  have h2 : r ∉ ["n", "N"] :=
    hr (["n", "N"], Action.print_next_time_message, false)
      (by simp [get_user_actions])
  have h3 : r ∉ ["d"] :=
    hr (["d"], Action.set_last_run_action, false) (by simp [get_user_actions])
  have h4 : r ∉ ["?"] :=
    hr (["?"], Action.print_menu, true) (by simp [get_user_actions])
  simp only [List.mem_cons, List.not_mem_nil, or_false, not_or] at h1 h2 h3 h4
  obtain ⟨hY, hy, he⟩ := h1
  obtain ⟨hn, hN⟩ := h2
  simp [get_user_actions, matchResponse, hY, hy, he, hn, hN, h3, h4]

/-! ### Claims -/

/-- Claim C1, counterexample.  The claim says an unrecognized response is
treated like an explicit defer, with no re-prompt.  On the code, the response
`x` matches no row of the action table, so `keep_going` keeps its value `True`
and the loop prompts again: the inputs `x` then `n` produce two prompts where
a plain defer produces one, and the lone input `x` leaves the loop still
waiting for another line instead of advancing to the next entry. -/
theorem unknown_response_differs_from_defer :
    promptLoop entryA 0 (some []) ["x", "n"] =
        some { prompts := 2, executed := [], file := some [], rest := [] } ∧
    promptLoop entryA 0 (some []) ["n"] =
        some { prompts := 1, executed := [], file := some [], rest := [] } ∧
    promptLoop entryA 0 (some []) ["x"] = none := by
  refine ⟨by decide, by decide, by decide⟩

/-- Claim C1, amended: an input line matching none of the recognized responses
runs no action — the history file is not touched and no command is executed —
but it does NOT defer: `keep_going` stays true and the same entry is prompted
again, so handling of the entry continues with the next input line and the
sweep advances only once a recognized terminating response arrives. -/
theorem unknown_response_reprompts (e : Entry) (now : Int)
    (file : Option History) (r : String) (rest : List String)
    (hr : ∀ act ∈ get_user_actions, r ∉ act.1) :
    promptLoop e now file (r :: rest) =
      (promptLoop e now file rest).map
        (fun res => { res with prompts := res.prompts + 1 }) := by
  have h := foldl_no_match e now r (file, [], true) hr
  simp only [promptLoop, h]
  cases promptLoop e now file rest <;> simp

/-- Witness for the amended C1 at the concrete unknown response `q`. -/
theorem unknown_response_reprompts_witness :
    promptLoop entryA 0 (some []) ["q", "n"] =
      (promptLoop entryA 0 (some []) ["n"]).map
        (fun res => { res with prompts := res.prompts + 1 }) :=
  unknown_response_reprompts entryA 0 (some []) "q" ["n"] (by decide)

/-- Claim C6: at a due-entry prompt the response `d` rewrites the history file
exactly as the run action does — `entry.name` mapped to the current timestamp
via `set_last_run` — while executing no command, whereas `y` performs the same
history update and also executes the entry command. -/
theorem reset_updates_history_like_run (e : Entry) (now : Int)
    (file : Option History) (rest : List String) :
    promptLoop e now file ("d" :: rest) =
      some { prompts := 1, executed := [],
             file := some (set_last_run file e now), rest := rest } ∧
    promptLoop e now file ("y" :: rest) =
      some { prompts := 1, executed := [e.command],
             file := some (set_last_run file e now), rest := rest } :=
  ⟨rfl, rfl⟩

/-- Claim C8: `run_entry` hands exactly the entry command to the shell and
then records `entry.name -> now` in the history; the subprocess exit status is
never inspected, so the whole result is independent of it. -/
theorem run_entry_ignores_exit_status (e : Entry) (file : Option History)
    (now s1 s2 : Int) :
    run_entry e file now s1 = run_entry e file now s2 ∧
    (run_entry e file now s1).1 = [e.command] ∧
    History.lookup (run_entry e file now s1).2 e.name = some now :=
  ⟨rfl, rfl, History.setKey_lookup_self _ _ _⟩

/-- Claim C9: `set_last_run` maps the entry name to the current timestamp,
leaves the recorded timestamp of every other name unchanged in the rewritten
mapping, and starts from the empty mapping when the backing file is absent. -/
theorem set_last_run_frame (file : Option History) (e : Entry) (now : Int) :
    History.lookup (set_last_run file e now) e.name = some now ∧
    (∀ m, m ≠ e.name →
      History.lookup (set_last_run file e now) m =
        History.lookup (file.getD []) m) ∧
    set_last_run none e now = [(e.name, now)] :=
  ⟨History.setKey_lookup_self _ _ _,
   fun m hm => History.setKey_lookup_other (file.getD []) e.name m now hm,
   rfl⟩

/-- Witness for C9: updating `A` leaves the record of `B` intact. -/
theorem set_last_run_frame_witness :
    History.lookup (set_last_run (some [(JValue.str "B", 3)]) entryA 7)
        (JValue.str "B") = some 3 := by
  have h := set_last_run_frame (some [(JValue.str "B", 3)]) entryA 7
  exact (h.2.1 (JValue.str "B") (by decide)).trans (by decide)

/-! ### Due calculation (C4, C10) -/

/-- `timedelta.days` as floor division, rewritten to Euclidean division (the
divisor is positive, so the two agree). -/
theorem daysBetween_floor (now lastRun : Int) :
    daysBetween now lastRun = (now - lastRun) / microsecondsPerDay :=
  Int.fdiv_eq_ediv _ (by norm_num [microsecondsPerDay])

/-- Claim C4: an entry with no recorded last run is always due; an entry whose
recorded run lies `k` whole days in the past (the elapsed duration truncated
to whole days) with interval `i` is due exactly when `i ≤ k`.  The last
conjunct pins the day count down: a recorded timestamp `t` with
`now = t + k` days plus a remainder below one day yields exactly `k`. -/
theorem due_decision (file : Option History) (now : Int) (e : Entry) (i : Int)
    (hi : pyInt e.interval = some i) :
    (get_days_since_last_run file now e = none → isDue file now e = some true) ∧
    (∀ k, get_days_since_last_run file now e = some k →
      (isDue file now e = some true ↔ i ≤ k)) ∧
    (∀ t k r, History.lookup (file.getD []) e.name = some t →
      now = t + k * microsecondsPerDay + r → 0 ≤ r → r < microsecondsPerDay →
      get_days_since_last_run file now e = some k) := by
  refine ⟨fun h => by simp [isDue, h], fun k hk => ?_, fun t k r hl hnow h0 h1 => ?_⟩
  · simp only [isDue, hk, hi, Option.map_some', Option.some.injEq,
      Bool.not_eq_true', decide_eq_false_iff_not]
    omega
  · subst hnow
    simp only [get_days_since_last_run, hl, Option.map_some', Option.some.injEq,
      daysBetween_floor]
    simp only [microsecondsPerDay] at h1 ⊢
    omega

/-- Witness for C4: an entry last run two whole days ago with interval 1
is due. -/
theorem due_decision_witness :
    isDue (some [(JValue.str "A", 0)]) (2 * microsecondsPerDay) entryA =
      some true := by
  have h := due_decision (some [(JValue.str "A", 0)]) (2 * microsecondsPerDay)
    entryA 1 (by decide)
  exact (h.2.1 2 (by decide)).2 (by decide)

/-- Claim C10: a recorded last-run timestamp strictly in the future makes the
computed day count negative (at most -1), so with any non-negative interval
the entry is not due and the sweep passes over it without prompting,
executing nothing and consuming no input. -/
theorem future_last_run_skipped (file : Option History) (now t : Int)
    (e : Entry) (i : Int) (inputs : List String)
    (hl : History.lookup (file.getD []) e.name = some t) (hfut : now < t)
    (hi : pyInt e.interval = some i) (hnn : 0 ≤ i) :
    get_days_since_last_run file now e = some (daysBetween now t) ∧
    daysBetween now t ≤ -1 ∧
    isDue file now e = some false ∧
    processEntry e now file inputs = some ⟨0, [], file, inputs⟩ := by
  have hneg : daysBetween now t ≤ -1 := by
    rw [daysBetween_floor]
    simp only [microsecondsPerDay]
    omega
  have hds : get_days_since_last_run file now e = some (daysBetween now t) := by
    simp [get_days_since_last_run, hl]
  refine ⟨hds, hneg, ?_, ?_⟩
  · simp only [isDue, hds, hi, Option.map_some', Option.some.injEq,
      Bool.not_eq_false', decide_eq_true_eq]
    omega
  · simp only [processEntry, hds, hi]
    rw [if_pos (by omega)]

/-- Witness for C10: last run one day in the future, interval 1: skipped. -/
theorem future_last_run_skipped_witness :
    processEntry entryA 0 (some [(JValue.str "A", microsecondsPerDay)]) [] =
      some ⟨0, [], some [(JValue.str "A", microsecondsPerDay)], []⟩ := by
  have h := future_last_run_skipped
    (some [(JValue.str "A", microsecondsPerDay)]) 0 microsecondsPerDay entryA
    1 [] (by decide) (by decide) (by decide) (by decide)
  exact h.2.2.2

/-! ### Config loading (C5, C3, C2) -/

theorem tryConfigFiles_all_absent (fs : ConfigFS) (allFiles : List String) :
    ∀ l, (∀ p ∈ l, load_json_list fs p = []) →
      tryConfigFiles fs allFiles l =
        .error (.systemExit ("No config file found at " ++
          String.intercalate ", " allFiles))
  | [], _ => rfl
  | p :: rest, h => by
    have hp : load_json_list fs p = [] := h p (by simp)
    simp only [tryConfigFiles, hp, List.isEmpty_nil, if_true]
    exact tryConfigFiles_all_absent fs allFiles rest
      (fun q hq => h q (by simp [hq]))

/-- Claim C5: when every candidate config location is absent or holds an
empty list, loading dies through `sys.exit` with a message listing every
candidate in order, and the process status is non-zero. -/
theorem missing_config_enumerates_candidates (fs : ConfigFS) (home : String)
    (config_file : Option String)
    (habs : ∀ p ∈ possible_config_files home config_file,
      load_json_list fs p = []) :
    load_config fs home config_file =
      .error (.systemExit ("No config file found at " ++
        String.intercalate ", " (possible_config_files home config_file))) ∧
    exitCode (load_config fs home config_file) = 1 := by
  have h := tryConfigFiles_all_absent fs (possible_config_files home config_file)
    (possible_config_files home config_file) habs
  exact ⟨h, by rw [load_config, h]; rfl⟩

/-- Witness for C5: an empty filesystem and no explicit path: the error names
both expanded default locations. -/
theorem missing_config_witness :
    load_config (fun _ => none) "/home/u" none =
      .error (.systemExit ("No config file found at " ++
        "/home/u/.config/nag_runner.json, /home/u/.nag_runner.json")) := by
  have h := missing_config_enumerates_candidates (fun _ => none) "/home/u" none
    (fun p _ => rfl)
  exact h.1.trans (by rfl)

theorem mkEntry_missing_field (r : Record) (f : String) (hf : f ∈ fieldNames)
    (hmiss : recLookup r f = none) :
    ∃ msg, mkEntry r = .error (.typeError msg) := by
  unfold mkEntry
  cases hfind : r.find? (fun kv => !(fieldNames.contains kv.1)) with
  | some kv => exact ⟨_, rfl⟩
  | none =>
    simp only [fieldNames, List.mem_cons, List.not_mem_nil, or_false] at hf
    rcases hn : recLookup r "name" with _ | n
    · exact ⟨"missing required argument name", rfl⟩
    · rcases hc : recLookup r "command" with _ | c
      · exact ⟨"missing required argument command", rfl⟩
      · rcases hi2 : recLookup r "interval" with _ | i
        · exact ⟨"missing required argument interval", rfl⟩
        · rcases hf with hf | hf | hf <;> subst hf <;> simp_all

theorem mkEntries_first_error (pre : List Record) (post : List Record)
    (r : Record) (err : PyError)
    (hpre : ∀ q ∈ pre, ∃ en, mkEntry q = Except.ok en)
    (hr : mkEntry r = Except.error err) :
    mkEntries (pre ++ r :: post) = Except.error err := by
  induction pre with
  | nil => simp [mkEntries, hr]
  | cons q qs ih =>
    obtain ⟨en, hen⟩ := hpre q (by simp)
    have hrest := ih (fun q2 hq2 => hpre q2 (by simp [hq2]))
    simp [mkEntries, hen, hrest]

/-- Claim C3: a config whose first invalid record lacks a required field
fails with the `TypeError` raised while binding that record to the `Entry`
fields (the InvalidConfigError class of failure); the error is decided by the
records up to and including the first invalid one — any continuation of the
list after it produces the very same error, so later records are never
attempted — and the process status is non-zero. -/
theorem invalid_record_fails_first (fs : ConfigFS) (home p : String)
    (pre post : List Record) (r : Record) (f : String)
    (hfs : fs p = some (pre ++ r :: post))
    (hf : f ∈ fieldNames) (hmiss : recLookup r f = none)
    (hpre : ∀ q ∈ pre, ∃ en, mkEntry q = Except.ok en) :
    ∃ msg, load_config fs home (some p) = .error (.typeError msg) ∧
      (∀ (post2 : List Record) (fs2 : ConfigFS),
        fs2 p = some (pre ++ r :: post2) →
        load_config fs2 home (some p) = .error (.typeError msg)) ∧
      exitCode (load_config fs home (some p)) = 1 := by
  obtain ⟨msg, hmsg⟩ := mkEntry_missing_field r f hf hmiss
  have key : ∀ (post3 : List Record) (fs3 : ConfigFS),
      fs3 p = some (pre ++ r :: post3) →
      load_config fs3 home (some p) = .error (.typeError msg) := by
    intro post3 fs3 h3
    have hmk : mkEntries (pre ++ r :: post3) = .error (.typeError msg) :=
      mkEntries_first_error pre post3 r _ hpre hmsg
    have hne : (pre ++ r :: post3).isEmpty = false := by
      cases pre <;> simp [List.isEmpty]
    simp [load_config, possible_config_files, tryConfigFiles, load_json_list,
      h3, hne, hmk]
  have h1 := key post fs hfs
  exact ⟨msg, h1, key, by rw [h1]; rfl⟩

/-- A record lacking the `interval` field, for the C3 witness. -/
def recNoInterval : Record := [("name", .str "A"), ("command", .str "true")]

/-- Witness for C3 at a one-record config missing `interval`. -/
theorem invalid_record_witness :
    ∃ msg,
      load_config (fun q => if q = "/cfg" then some [recNoInterval] else none)
          "/h" (some "/cfg") = .error (.typeError msg) := by
  obtain ⟨msg, h1, _, _⟩ := invalid_record_fails_first
    (fun q => if q = "/cfg" then some [recNoInterval] else none) "/h" "/cfg"
    [] [] recNoInterval "interval" (by rfl) (by decide) (by decide)
    (by simp)
  exact ⟨msg, h1⟩

/-- A record with the three required fields plus an extra unknown field. -/
def recExtraField : Record :=
  [("name", .str "A"), ("command", .str "true"), ("interval", .num 1),
   ("note", .str "x")]

/-- Claim C2, counterexample.  The claim says a record carrying the three
required fields plus an unknown field loads fine with the extra field
ignored.  On the code `Entry(**entry_data)` raises
`TypeError: unexpected keyword argument` for the extra key, so loading the
one-record config below fails instead of succeeding. -/
theorem extra_field_not_ignored :
    mkEntry recExtraField =
      .error (.typeError "unexpected keyword argument note") ∧
    load_config (fun q => if q = "/cfg" then some [recExtraField] else none)
        "/h" (some "/cfg") =
      .error (.typeError "unexpected keyword argument note") :=
  ⟨rfl, rfl⟩

/-- Claim C2, amended: a record whose keys are exactly the three fields
`name`, `command`, `interval` builds the Entry carrying exactly those three
values, but a record containing any additional unknown key is NOT accepted:
namedtuple construction raises a `TypeError` naming an unexpected keyword
argument, so such a config fails to load. -/
theorem entry_fields_exact (r : Record) :
    ((∀ kv ∈ r, kv.1 ∈ fieldNames) →
      ∀ n c i, recLookup r "name" = some n → recLookup r "command" = some c →
        recLookup r "interval" = some i → mkEntry r = .ok ⟨n, c, i⟩) ∧
    (∀ kv ∈ r, kv.1 ∉ fieldNames →
      ∃ bad, bad ∉ fieldNames ∧
        mkEntry r = .error
          (.typeError ("unexpected keyword argument " ++ bad))) := by
  constructor
  · intro hall n c i hn hc hi
    have hfind : r.find? (fun kv => !(fieldNames.contains kv.1)) = none := by
      rw [List.find?_eq_none]
      intro kv hkv
      simp [List.contains, hall kv hkv]
    unfold mkEntry
    rw [hfind, hn, hc, hi]
  · intro kv hkv hbad
    have hsome : (r.find? (fun kv2 => !(fieldNames.contains kv2.1))).isSome := by
      rw [List.find?_isSome]
      exact ⟨kv, hkv, by simp [List.contains, hbad]⟩
    obtain ⟨kv2, hkv2⟩ := Option.isSome_iff_exists.mp hsome
    have hp := List.find?_some hkv2
    refine ⟨kv2.1, ?_, ?_⟩
    · intro hmem
      simp [List.contains, hmem] at hp
    · unfold mkEntry
      rw [hkv2]

/-- Witness for the amended C2: the exact three fields build the Entry. -/
theorem entry_fields_exact_witness :
    mkEntry [("name", JValue.str "A"), ("command", JValue.str "true"),
        ("interval", JValue.num 1)] =
      .ok ⟨JValue.str "A", JValue.str "true", JValue.num 1⟩ :=
  (entry_fields_exact _).1 (by decide) _ _ _ rfl rfl rfl

/-! ### Run by name (C7) -/

/-- Claim C7: requesting a name absent from the config dies through
`sys.exit` with the InvalidEntryError-class message, leaves the history file
untouched (the process exits before any write) and yields a non-zero status;
a present name resolves to the first matching entry, whose command is
executed unconditionally — no prompt is read, no due computation consulted,
the history content being arbitrary here — and the history is then updated
for that entry. -/
theorem run_by_name_contract (config : List Entry) (file : Option History)
    (now s : Int) (name : String) :
    ((∀ en ∈ config, en.name ≠ JValue.str name) →
      run_entry_by_name config file now s name =
          .error (.systemExit ("Could not find entry with name " ++ name)) ∧
      historyAfterRun file (run_entry_by_name config file now s name) =
          file.getD [] ∧
      exitCode (run_entry_by_name config file now s name) = 1) ∧
    (∀ en, get_entry_by_name config name = .ok en →
      run_entry_by_name config file now s name =
        .ok ([en.command], set_last_run file en now)) := by
  constructor
  · intro habs
    have hfind : config.find?
        (fun entry => decide (entry.name = JValue.str name)) = none := by
      rw [List.find?_eq_none]
      intro en hen
      simp [habs en hen]
    have herr : run_entry_by_name config file now s name =
        .error (.systemExit ("Could not find entry with name " ++ name)) := by
      unfold run_entry_by_name get_entry_by_name
      rw [hfind]
    exact ⟨herr, by rw [herr]; rfl, by rw [herr]; rfl⟩
  · intro en hen
    unfold run_entry_by_name
    rw [hen]
    rfl

/-- Witness for C7: a one-entry config, one absent and one present name. -/
theorem run_by_name_contract_witness :
    run_entry_by_name [entryA] none 7 0 "zzz" =
        .error (.systemExit "Could not find entry with name zzz") ∧
    run_entry_by_name [entryA] none 7 0 "A" =
        .ok ([JValue.str "true"], [(JValue.str "A", 7)]) := by
  constructor
  · exact (((run_by_name_contract [entryA] none 7 0 "zzz").1 (by decide)).1).trans
      (by rfl)
  · exact ((run_by_name_contract [entryA] none 7 0 "A").2 entryA (by rfl)).trans
      (by rfl)

end NagRunner
